import Mathlib

/-!
Verification of the Hallway Protocol orchestrator (hallway.py, upcaster.py)
against its natural-language specification.

The repository's `gates.py` and `audit.py` modules are referenced by the
orchestrator but are not part of the provided sources; the canonical
serializer, digest function, audit-chain builder and gate-chain evaluator
are therefore modelled from the specification (each such definition is
marked `Modelled from the spec:` in its doc comment).  Everything else is a
direct shallow embedding of the Python sources.
-/

namespace Hallway

/-- JSON-like structured values: the shallow embedding of the Python
dict/list/str/int/bool/None payloads handled by the orchestrator.
Mappings are association lists of string keys. -/
inductive Value where
  | vNull : Value
  | vBool (b : Bool) : Value
  | vInt (n : Int) : Value
  | vStr (s : String) : Value
  | vArr (items : List Value) : Value
  | vObj (entries : List (String × Value)) : Value

mutual

/-- Structural Boolean equality on values. -/
def beqValue : Value → Value → Bool
  | .vNull, .vNull => true
  | .vBool a, .vBool b => a == b
  | .vInt a, .vInt b => a == b
  | .vStr a, .vStr b => a == b
  | .vArr xs, .vArr ys => beqValueList xs ys
  | .vObj l₁, .vObj l₂ => beqValueEntries l₁ l₂
  | _, _ => false

/-- Structural Boolean equality on lists of values. -/
def beqValueList : List Value → List Value → Bool
  | [], [] => true
  | v :: vs, w :: ws => beqValue v w && beqValueList vs ws
  | _, _ => false

/-- Structural Boolean equality on entry lists. -/
def beqValueEntries : List (String × Value) → List (String × Value) → Bool
  | [], [] => true
  | (k₁, v₁) :: r₁, (k₂, v₂) :: r₂ => k₁ == k₂ && beqValue v₁ v₂ && beqValueEntries r₁ r₂
  | _, _ => false

end

mutual

theorem beqValue_iff : ∀ a b : Value, beqValue a b = true ↔ a = b
  | a, b => by
    cases a <;> cases b <;> simp only [beqValue, Value.vBool.injEq, Value.vInt.injEq,
      Value.vStr.injEq, Value.vArr.injEq, Value.vObj.injEq, beq_iff_eq] <;>
      first
        | rfl
        | simp
        | exact beqValueList_iff _ _
        | exact beqValueEntries_iff _ _

theorem beqValueList_iff : ∀ xs ys : List Value, beqValueList xs ys = true ↔ xs = ys
  | xs, ys => by
    cases xs with
    | nil => cases ys <;> simp [beqValueList]
    | cons v vs =>
      cases ys with
      | nil => simp [beqValueList]
      | cons w ws =>
        simp only [beqValueList, Bool.and_eq_true, List.cons.injEq]
        rw [beqValue_iff, beqValueList_iff]

theorem beqValueEntries_iff : ∀ l₁ l₂ : List (String × Value), beqValueEntries l₁ l₂ = true ↔ l₁ = l₂
  | l₁, l₂ => by
    cases l₁ with
    | nil => cases l₂ <;> simp [beqValueEntries]
    | cons p r₁ =>
      cases l₂ with
      | nil => cases p; simp [beqValueEntries]
      | cons q r₂ =>
        cases p; cases q
        simp only [beqValueEntries, Bool.and_eq_true, List.cons.injEq, Prod.mk.injEq, beq_iff_eq]
        rw [beqValue_iff, beqValueEntries_iff]

end

instance : DecidableEq Value := fun a b => decidable_of_iff _ (beqValue_iff a b)

/-- Python `key in dict` membership test on a structured value. -/
def objHasKey (v : Value) (k : String) : Bool :=
  match v with
  | .vObj entries => entries.any (fun p => p.1 == k)
  | _ => false

/-- Python `dict[key]` / `dict.get(key)` lookup on a structured value. -/
def objGet (v : Value) (k : String) : Option Value :=
  match v with
  | .vObj entries => (entries.find? (fun p => p.1 == k)).map Prod.snd
  | _ => none

/-- Order on rendered object entries: compare the (string) keys
lexicographically by their character lists. -/
def entryLE (p q : String × String) : Prop := p.1.data ≤ q.1.data

instance : DecidableRel entryLE := fun p q => inferInstanceAs (Decidable (p.1.data ≤ q.1.data))

instance : IsTotal (String × String) entryLE := ⟨fun a b => le_total a.1.data b.1.data⟩

instance : IsTrans (String × String) entryLE := ⟨fun _ _ _ h₁ h₂ => le_trans h₁ h₂⟩

/-- Strict version of `entryLE`, used to identify sorted entry lists with
pairwise-distinct keys uniquely. -/
def entryLT (p q : String × String) : Prop := p.1.data < q.1.data

instance : IsAntisymm (String × String) entryLT :=
  ⟨fun _ _ h₁ h₂ => (lt_asymm h₁ h₂).elim⟩

/-- Sort rendered object entries by key (the canonical serializer's
stable key ordering). -/
def sortEntries (l : List (String × String)) : List (String × String) :=
  List.insertionSort entryLE l

/-- Escape one character for the canonical serialization. -/
def escapeChar (c : Char) : String :=
  if c = '"' then "\\\"" else if c = '\\' then "\\\\" else String.singleton c

/-- Escape a string for embedding in the canonical serialization. -/
def escapeString (s : String) : String :=
  String.join (s.data.map escapeChar)

/-- Join rendered pieces with a separator. -/
def joinSep (sep : String) : List String → String
  | [] => ""
  | [x] => x
  | x :: y :: rest => x ++ sep ++ joinSep sep (y :: rest)

/-- Render one sorted object entry as `"key":value`. -/
def renderEntry (p : String × String) : String :=
  "\"" ++ escapeString p.1 ++ "\":" ++ p.2

mutual

/-- Modelled from the spec: `audit.canonical_json` (the Canonical
Serializer, missing from the provided sources).  Deterministic byte-stable
serialization: mapping keys are emitted in sorted order, with no
insignificant whitespace, and numeric/string encoding stable across
calls. -/
def canonicalVal : Value → String
  | .vNull => "null"
  | .vBool true => "true"
  | .vBool false => "false"
  | .vInt n => toString n
  | .vStr s => "\"" ++ escapeString s ++ "\""
  | .vArr items => "[" ++ joinSep "," (canonicalList items) ++ "]"
  | .vObj entries =>
      "\x7b" ++ joinSep "," ((sortEntries (canonicalEntries entries)).map renderEntry) ++ "\x7d"

/-- Serialize each element of an array. -/
def canonicalList : List Value → List String
  | [] => []
  | v :: vs => canonicalVal v :: canonicalList vs

/-- Serialize the value of each object entry, keeping its key. -/
def canonicalEntries : List (String × Value) → List (String × String)
  | [] => []
  | (k, v) :: rest => (k, canonicalVal v) :: canonicalEntries rest

end

/-- Modelled from the spec: `audit.canonical_json`.  Entry point of the
Canonical Serializer. -/
def canonical_json (v : Value) : String := canonicalVal v

/-- Modelled from the spec: `audit.sha256_hex` (missing from the provided
sources).  The spec requires a fixed, collision-resistant one-way hash over
the canonical bytes, rendered as a lowercase hexadecimal string; SHA-256
itself is abstracted here by a simpler deterministic digest of the
characters.  Every property proved below uses only that the digest is a
fixed function of the canonical serialization. -/
def sha256_hex (s : String) : String :=
  let h := s.data.foldl (fun acc c => (acc * 1099511628211 + c.toNat) % (2 ^ 64)) 14695981039346656037
  (Nat.toDigits 16 h).asString

/-- Modelled from the spec: `audit.compute_step_hash` — the step hash is
the digest of the canonical serialization of the legacy room output. -/
def compute_step_hash (room_output : Value) : String :=
  sha256_hex (canonical_json room_output)

/-- The `audit` block of a Stage Result Envelope (upcaster.py lines 39-43). -/
structure Audit where
  step_hash : String
  prev_hash : Option String
  room_contract_version : String
deriving DecidableEq

/-- A decline block `{reason, message, details}` (upcaster.py lines 52-58,
hallway.py lines 99-103 and 160-164). -/
structure DeclineInfo where
  reason : String
  message : String
  details : Value
deriving DecidableEq

/-- The v0.2 StepResult envelope built by `upcast_v01_to_v02`
(upcaster.py lines 61-71).  The fixed `invariants` block is flattened into
two Boolean fields. -/
structure StepResult where
  contract_version : String
  room_id : String
  status : String
  data : Value
  invariants_deterministic : Bool
  invariants_no_partial_write : Bool
  gate_decisions : List Value
  diagnostics_digest : String
  audit : Audit
  decline : Option DeclineInfo
deriving DecidableEq

/-- Embedding of `upcast_v01_to_v02` (upcaster.py lines 10-73).  All
keyword parameters are passed positionally. -/
def upcast_v01_to_v02 (room_id : String) (room_output_v01 : Value) (status : String)
    (gate_decisions : List Value) (prev_hash : Option String)
    (diagnostics_digest : Option String) (room_contract_version : String) : StepResult :=
  let step_hash := compute_step_hash room_output_v01
  let audit : Audit :=
    { step_hash := step_hash
      prev_hash := prev_hash
      room_contract_version := room_contract_version }
  let decline : Option DeclineInfo :=
    if status = "decline" then
      some { reason := "gate_denied_or_room_decline"
             message := "See gate_decisions and data for details"
             details := .vObj [] }
    else none
  { contract_version := "0.2.0"
    room_id := room_id
    status := status
    data := room_output_v01
    invariants_deterministic := true
    invariants_no_partial_write := true
    gate_decisions := gate_decisions
    diagnostics_digest :=
      match diagnostics_digest with
      | some d => d
      | none => "sha256:" ++ sha256_hex (canonical_json room_output_v01)
    audit := audit
    decline := decline }

/-- Embedding of `downcast_v02_to_v01` (upcaster.py lines 76-86): pure
projection of the `data` field. -/
def downcast_v02_to_v01 (step_result_v02 : StepResult) : Value :=
  step_result_v02.data

/-- Embedding of `verify_roundtrip` (upcaster.py lines 89-112): compare
canonical serializations of the original payload and the downcast data. -/
def verify_roundtrip (room_output_v01 : Value) (step_result_v02 : StepResult) : Bool :=
  canonical_json room_output_v01 == canonical_json (downcast_v02_to_v01 step_result_v02)

/-- Modelled from the spec: a Gate Decision record
`{ gate_name, verdict (allow/deny), rationale }` (spec section 3; gates.py is
missing from the provided sources). -/
structure GateDecision where
  gate_name : String
  allow : Bool
  rationale : String
deriving DecidableEq

/-- The dict form of a gate decision appended to envelopes
(hallway.py line 77 converts decisions with `to_dict`). -/
def GateDecision.toValue (d : GateDecision) : Value :=
  .vObj [("gate_name", .vStr d.gate_name), ("allow", .vBool d.allow),
         ("rationale", .vStr d.rationale)]

/-- A gate registry: maps a gate name plus the evaluation arguments
(stage id, session reference, optional payload) to a Gate Decision. -/
def GateRegistry : Type := String → String → String → Option Value → GateDecision

/-- Modelled from the spec: `gates.evaluate_gate_chain` (spec section 4.2;
gates.py is missing from the provided sources).  Every gate in the chain is
consulted in order — no short-circuit — and the overall verdict is the
conjunction of the individual allow verdicts. -/
def evaluate_gate_chain (chain : List String) (room_id session_state_ref : String)
    (payload : Option Value) (gates : GateRegistry) : List GateDecision × Bool :=
  let decisions := chain.map (fun g => gates g room_id session_state_ref payload)
  (decisions, decisions.all (fun d => d.allow))

/-- Modelled from the spec: `audit.build_audit_chain` (spec section 4.4) —
a direct projection of `audit.step_hash` over the envelopes in run order. -/
def build_audit_chain (steps : List StepResult) : List String :=
  steps.map (fun s => s.audit.step_hash)

/-- Hallway contract configuration consumed by the orchestrator
(hallway.py lines 28-31): canonical sequence, gate profile chain and
metadata echoed into the Run Report. -/
structure Contract where
  sequence : List String
  gate_profile_chain : List String
  stone_alignment : Value
  mini_walk_supported : Bool

/-- The orchestrator: contract plus gate registry (hallway.py lines 20-31). -/
structure HallwayOrchestrator where
  contract : Contract
  gates : GateRegistry

/-- `self.sequence` (hallway.py line 30). -/
def HallwayOrchestrator.sequence (o : HallwayOrchestrator) : List String :=
  o.contract.sequence

/-- Recognized run options with their defaults (hallway.py lines 51-55). -/
structure RunOptions where
  stop_on_decline : Bool
  dry_run : Bool
  mini_walk : Bool
  rooms_subset : List String

/-- The exit summary block (hallway.py lines 266-272). -/
structure ExitSummary where
  completed : Bool
  decline : Option DeclineInfo
  auditable_hash_chain : List String
deriving DecidableEq

/-- The `inputs` block of the Run Report (hallway.py lines 288-292). -/
structure HallwayInputs where
  session_state_ref : String
deriving DecidableEq

/-- The `outputs` block of the Run Report (hallway.py lines 293-298). -/
structure HallwayOutputs where
  contract_version : String
  steps : List StepResult
  final_state_ref : String
  exit_summary : ExitSummary
deriving DecidableEq

/-- The Run Report (hallway.py lines 279-298). -/
structure HallwayOutput where
  room_id : String
  title : String
  version : String
  purpose : String
  stone_alignment : Value
  sequence : List String
  mini_walk_supported : Bool
  gate_profile_chain : List String
  inputs : HallwayInputs
  outputs : HallwayOutputs

/-- Embedding of `_build_exit_summary` (hallway.py lines 266-272). -/
def build_exit_summary (completed : Bool) (decline : Option DeclineInfo)
    (steps : List StepResult) : ExitSummary :=
  { completed := completed
    decline := decline
    auditable_hash_chain := build_audit_chain steps }

/-- Embedding of `_build_hallway_output` (hallway.py lines 274-299).
`final_state_ref and final_state_ref.strip()` is the Python truthiness
test for a non-empty, non-whitespace reference. -/
def build_hallway_output (o : HallwayOrchestrator) (steps : List StepResult)
    (final_state_ref : String) (exit_summary : ExitSummary) : HallwayOutput :=
  let valid_session_ref :=
    if final_state_ref != "" && final_state_ref.trim != "" then final_state_ref
    else "invalid-session-ref"
  { room_id := "hallway"
    title := "Hallway"
    version := "0.2.0"
    purpose := "Deterministic multi-room session orchestrator"
    stone_alignment := o.contract.stone_alignment
    sequence := o.sequence
    mini_walk_supported := o.contract.mini_walk_supported
    gate_profile_chain := o.contract.gate_profile_chain
    inputs := { session_state_ref := valid_session_ref }
    outputs :=
      { contract_version := "0.2.0"
        steps := steps
        final_state_ref := valid_session_ref
        exit_summary := exit_summary } }

/-- Embedding of `_determine_rooms_to_run`'s subset validation loop
(hallway.py lines 185-188): raise on the first subset entry missing from
the canonical sequence. -/
def checkSubset (sequence : List String) : List String → Except String Unit
  | [] => .ok ()
  | r :: rest =>
      if sequence.contains r then checkSubset sequence rest
      else .error ("Room " ++ r ++ " not found in canonical sequence")

/-- Embedding of `_determine_rooms_to_run` (hallway.py lines 182-198). -/
def HallwayOrchestrator.determine_rooms_to_run (o : HallwayOrchestrator)
    (rooms_subset : List String) (mini_walk : Bool) : Except String (List String) :=
  if rooms_subset ≠ [] then
    match checkSubset o.sequence rooms_subset with
    | .error e => .error e
    | .ok _ => .ok rooms_subset
  else if mini_walk then
    if 2 ≤ o.sequence.length then .ok [o.sequence.head!, o.sequence.getLast!]
    else .ok o.sequence
  else .ok o.sequence

/-- `payloads.get(room_id) if payloads else None` (hallway.py line 72). -/
def payloadFor (payloads : Option (List (String × Value))) (room_id : String) : Option Value :=
  payloads.bind (fun m => (m.find? (fun p => p.1 == room_id)).map Prod.snd)

/-- The mock room output the orchestrator substitutes for room execution
(hallway.py lines 114 and 128): real execution is stubbed out. -/
def mockOutput (room_id : String) : Value :=
  .vObj [("dry_run", .vBool true), ("room_id", .vStr room_id)]

/-- Embedding of `_is_room_decline` (hallway.py lines 255-264). -/
def is_room_decline (room_output : Value) : Bool :=
  if objHasKey room_output "error" then true
  else if objGet room_output "status" == some (Value.vStr "decline") then true
  else if (match objGet room_output "next_action" with
           | some v => v == Value.vStr "hold" || v == Value.vStr "later"
           | none => false) then true
  else false

/-- The error payload carried by a gate-denial decline envelope
(hallway.py lines 84-87). -/
def gateFailPayload (gate_decisions_dict : List Value) : Value :=
  .vObj [("error", .vStr "Gate chain evaluation failed"),
         ("gate_decisions", .vArr gate_decisions_dict)]

/-- The aggregate pass/fail verdict of the gate chain for one room
(hallway.py lines 68-74, second component of `evaluate_gate_chain`). -/
def gatePass (o : HallwayOrchestrator) (session_state_ref : String)
    (payloads : Option (List (String × Value))) (room_id : String) : Bool :=
  (evaluate_gate_chain o.contract.gate_profile_chain room_id session_state_ref
    (payloadFor payloads room_id) o.gates).2

/-- The dict-converted gate decisions for one room (hallway.py line 77). -/
def gateDecisionsFor (o : HallwayOrchestrator) (session_state_ref : String)
    (payloads : Option (List (String × Value))) (room_id : String) : List Value :=
  ((evaluate_gate_chain o.contract.gate_profile_chain room_id session_state_ref
    (payloadFor payloads room_id) o.gates).1).map GateDecision.toValue

/-- The per-room loop of `HallwayOrchestrator.run` (hallway.py lines
66-180), with the accumulated steps, the running previous-hash pointer and
the current final state reference as explicit state.  The room loop either
returns early through `_build_hallway_output` on a decline with
`stop_on_decline`, or falls through to the completed exit summary. -/
def runLoop (o : HallwayOrchestrator) (session_state_ref : String)
    (payloads : Option (List (String × Value))) (stop_on_decline dry_run : Bool) :
    List String → List StepResult → Option String → String → HallwayOutput
  | [], steps, _last_hash, final_state_ref =>
      build_hallway_output o steps final_state_ref (build_exit_summary true none steps)
  | room_id :: rest, steps, last_hash, final_state_ref =>
      let gate_decisions_dict := gateDecisionsFor o session_state_ref payloads room_id
      if !(gatePass o session_state_ref payloads room_id) then
        let decline_step := upcast_v01_to_v02 room_id (gateFailPayload gate_decisions_dict)
          "decline" gate_decisions_dict last_hash none "0.1.0"
        let steps' := steps ++ [decline_step]
        if stop_on_decline then
          build_hallway_output o steps' final_state_ref (build_exit_summary false
            (some { reason := "gate_chain_failed"
                    message := "Gate chain evaluation failed for room " ++ room_id
                    details := .vObj [("room_id", .vStr room_id),
                                      ("gate_decisions", .vArr gate_decisions_dict)] })
            steps')
        else
          runLoop o session_state_ref payloads stop_on_decline dry_run rest steps'
            (some decline_step.audit.step_hash) final_state_ref
      else if dry_run then
        let step_result := upcast_v01_to_v02 room_id (mockOutput room_id) "ok"
          gate_decisions_dict last_hash none "0.1.0"
        runLoop o session_state_ref payloads stop_on_decline dry_run rest
          (steps ++ [step_result]) (some step_result.audit.step_hash) final_state_ref
      else
        let room_output := mockOutput room_id
        let status := if is_room_decline room_output then "decline" else "ok"
        let step_result := upcast_v01_to_v02 room_id room_output status
          gate_decisions_dict last_hash none "0.1.0"
        let steps' := steps ++ [step_result]
        let final_state_ref' :=
          match objGet room_output "session_state_ref" with
          | some (.vStr s) => s
          | _ => final_state_ref
        if status == "decline" && stop_on_decline then
          build_hallway_output o steps' final_state_ref' (build_exit_summary false
            (some { reason := "room_declined"
                    message := "Room " ++ room_id ++ " declined to proceed"
                    details := .vObj [("room_id", .vStr room_id),
                                      ("room_output", room_output)] })
            steps')
        else
          runLoop o session_state_ref payloads stop_on_decline dry_run rest steps'
            (some step_result.audit.step_hash) final_state_ref'

/-- Embedding of `HallwayOrchestrator.run` (hallway.py lines 33-180).
The `ValueError` raised on an invalid `rooms_subset` is modelled by the
`Except.error` branch. -/
def HallwayOrchestrator.run (o : HallwayOrchestrator) (session_state_ref : String)
    (payloads : Option (List (String × Value))) (options : RunOptions) :
    Except String HallwayOutput :=
  match o.determine_rooms_to_run options.rooms_subset options.mini_walk with
  | .error e => .error e
  | .ok rooms_to_run =>
      .ok (runLoop o session_state_ref payloads options.stop_on_decline options.dry_run
        rooms_to_run [] none session_state_ref)

/-- Boolean test that a list of keys is duplicate-free (the invariant a
Python dict's key set always satisfies). -/
def distinctKeys : List String → Bool
  | [] => true
  | k :: rest => !(rest.contains k) && distinctKeys rest

mutual

/-- Well-formedness of a structured value as an image of a Python value:
every mapping in it has pairwise-distinct keys (a dict cannot hold the
same key twice). -/
def wfValue : Value → Bool
  | .vNull => true
  | .vBool _ => true
  | .vInt _ => true
  | .vStr _ => true
  | .vArr items => wfList items
  | .vObj entries => distinctKeys (entries.map Prod.fst) && wfEntries entries

/-- Well-formedness of every element of an array. -/
def wfList : List Value → Bool
  | [] => true
  | v :: vs => wfValue v && wfList vs

/-- Well-formedness of every value of an entry list. -/
def wfEntries : List (String × Value) → Bool
  | [] => true
  | (_, v) :: rest => wfValue v && wfEntries rest

end

mutual

/-- Two structured values denote the same Python value up to the
construction order of mapping keys: equal atoms, element-wise equivalent
arrays, and objects whose entry lists agree up to a permutation combined
with recursively equivalent values at equal keys. -/
inductive KeyPermEquiv : Value → Value → Prop where
  | null : KeyPermEquiv .vNull .vNull
  | bool (b : Bool) : KeyPermEquiv (.vBool b) (.vBool b)
  | int (n : Int) : KeyPermEquiv (.vInt n) (.vInt n)
  | str (s : String) : KeyPermEquiv (.vStr s) (.vStr s)
  | arr {xs ys : List Value} : EquivList xs ys → KeyPermEquiv (.vArr xs) (.vArr ys)
  | obj {l₁ mid l₂ : List (String × Value)} :
      EquivEntries l₁ mid → mid.Perm l₂ → KeyPermEquiv (.vObj l₁) (.vObj l₂)

/-- Element-wise `KeyPermEquiv` on arrays. -/
inductive EquivList : List Value → List Value → Prop where
  | nil : EquivList [] []
  | cons {v w : Value} {vs ws : List Value} :
      KeyPermEquiv v w → EquivList vs ws → EquivList (v :: vs) (w :: ws)

/-- Entry-wise equivalence: equal keys in the same order, recursively
equivalent values. -/
inductive EquivEntries : List (String × Value) → List (String × Value) → Prop where
  | nil : EquivEntries [] []
  | cons (k : String) {v w : Value} {l₁ l₂ : List (String × Value)} :
      KeyPermEquiv v w → EquivEntries l₁ l₂ → EquivEntries ((k, v) :: l₁) ((k, w) :: l₂)

end

/-- The hash the orchestrator threads into the next envelope after having
appended `steps` on top of an initial pointer `h0`. -/
def nextHash (h0 : Option String) (steps : List StepResult) : Option String :=
  match steps.getLast? with
  | some s => some s.audit.step_hash
  | none => h0

/-- The audit chain-linkage invariant: starting from pointer `h0`, each
envelope's `prev_hash` equals the pointer, which then advances to that
envelope's `step_hash`. -/
def chainLinkedFrom : Option String → List StepResult → Prop
  | _, [] => True
  | h0, s :: rest => s.audit.prev_hash = h0 ∧ chainLinkedFrom (some s.audit.step_hash) rest

/-- A gate registry whose every gate allows every stage. -/
def allowGates : GateRegistry := fun g _ _ _ =>
  { gate_name := g, allow := true, rationale := "ok" }

/-- A gate registry whose every gate denies every stage. -/
def denyGates : GateRegistry := fun g _ _ _ =>
  { gate_name := g, allow := false, rationale := "denied" }

/-- A gate registry denying exactly the stage `"walk_room"`. -/
def walkDenyGates : GateRegistry := fun g room _ _ =>
  { gate_name := g, allow := !(room == "walk_room"), rationale := "conditional" }

/-- A three-stage contract mirroring the canonical sequence of the
end-to-end examples in the spec. -/
def sampleContract : Contract :=
  { sequence := ["entry_room", "walk_room", "exit_room"]
    gate_profile_chain := ["coherence_gate"]
    stone_alignment := .vArr []
    mini_walk_supported := true }

/-- Orchestrator over `sampleContract` whose gates always allow. -/
def sampleOrch : HallwayOrchestrator := { contract := sampleContract, gates := allowGates }

/-- Orchestrator over `sampleContract` whose gates always deny. -/
def denyOrch : HallwayOrchestrator := { contract := sampleContract, gates := denyGates }

/-- Orchestrator over `sampleContract` denying only `"walk_room"`. -/
def walkDenyOrch : HallwayOrchestrator := { contract := sampleContract, gates := walkDenyGates }

/-- Default options (hallway.py lines 52-55) with `dry_run` enabled. -/
def dryOpts : RunOptions :=
  { stop_on_decline := true, dry_run := true, mini_walk := false, rooms_subset := [] }

/-- Default options: `stop_on_decline` true, everything else off. -/
def defaultOpts : RunOptions :=
  { stop_on_decline := true, dry_run := false, mini_walk := false, rooms_subset := [] }

/-- Options with `stop_on_decline` disabled. -/
def continueOpts : RunOptions :=
  { stop_on_decline := false, dry_run := false, mini_walk := false, rooms_subset := [] }

/-- Options requesting a subset containing a stage outside the canonical
sequence. -/
def badSubsetOpts : RunOptions :=
  { stop_on_decline := true, dry_run := false, mini_walk := false
    rooms_subset := ["entry_room", "unknown_room"] }

/-- The Run Report of a dry run of `sampleOrch` over the full sequence. -/
def sampleDryRunOut : HallwayOutput :=
  runLoop sampleOrch "session-1" none true true ["entry_room", "walk_room", "exit_room"] [] none "session-1"

/-! ## Theorems -/

/-- C2: for every legacy output value and any upcast metadata,
`verify_roundtrip` succeeds on the upcast of that value, and the canonical
serialization of the downcast of the upcast equals the canonical
serialization of the original value. -/
theorem verify_roundtrip_upcast (v : Value) (room_id status : String)
    (gate_decisions : List Value) (prev_hash diagnostics_digest : Option String)
    (room_contract_version : String) :
    verify_roundtrip v (upcast_v01_to_v02 room_id v status gate_decisions prev_hash
      diagnostics_digest room_contract_version) = true ∧
    canonical_json (downcast_v02_to_v01 (upcast_v01_to_v02 room_id v status gate_decisions
      prev_hash diagnostics_digest room_contract_version)) = canonical_json v := by
  constructor
  · simp [verify_roundtrip, downcast_v02_to_v01, upcast_v01_to_v02]
  · rfl

/-- A pair's key is among the mapped keys of any entry list containing it. -/
theorem mem_keys_of_mem {kvs : List (String × Value)} {k : String} {v : Value}
    (h : (k, v) ∈ kvs) : k ∈ kvs.map Prod.fst :=
  List.mem_map_of_mem Prod.fst h

/-- With duplicate-free keys, key lookup finds exactly the unique binding. -/
theorem find_key_eq_of_nodup {kvs : List (String × Value)} {k : String} {v : Value}
    (hn : (kvs.map Prod.fst).Nodup) (hm : (k, v) ∈ kvs) :
    kvs.find? (fun p => p.1 == k) = some (k, v) := by
  induction kvs with
  | nil => cases hm
  | cons p rest ih =>
      have hn' : (p.1 :: rest.map Prod.fst).Nodup := by
        rw [← List.map_cons]
        exact hn
      obtain ⟨hp, hrest⟩ := List.nodup_cons.mp hn'
      rcases List.mem_cons.mp hm with h | h
      · rw [← h]
        simp [List.find?]
      · have hkne : (p.1 == k) = false := by
          rw [beq_eq_false_iff_ne]
          exact fun e => hp (e ▸ mem_keys_of_mem h)
        simp only [List.find?, hkne]
        exact ih hrest h

/-- Membership form of the Python `key in dict` test. -/
theorem objHasKey_iff (kvs : List (String × Value)) (k : String) :
    objHasKey (.vObj kvs) k = true ↔ ∃ v, (k, v) ∈ kvs := by
  simp only [objHasKey, List.any_eq_true]
  constructor
  · rintro ⟨p, hp, he⟩
    exact ⟨p.2, by rwa [show p = (k, p.2) from Prod.ext (beq_iff_eq.mp he) rfl] at hp⟩
  · rintro ⟨v, hv⟩
    exact ⟨(k, v), hv, by simp⟩

/-- Membership form of the Python `dict[key] == value` test, assuming
duplicate-free keys. -/
theorem objGet_eq_some_iff {kvs : List (String × Value)} {k : String} {v : Value}
    (hn : (kvs.map Prod.fst).Nodup) :
    objGet (.vObj kvs) k = some v ↔ (k, v) ∈ kvs := by
  simp only [objGet, Option.map_eq_some']
  constructor
  · rintro ⟨p, hf, hv⟩
    have hpred := List.find?_some hf
    have hpk : p.1 = k := by simpa using hpred
    have hmem := List.mem_of_find?_eq_some hf
    rwa [show p = (k, v) from Prod.ext hpk hv] at hmem
  · intro hm
    exact ⟨(k, v), find_key_eq_of_nodup hn hm, rfl⟩

/-- The decline classifier as a flat disjunction of its three recognized
signals. -/
theorem is_room_decline_iff (v : Value) :
    is_room_decline v = true ↔
      (objHasKey v "error" = true ∨
       objGet v "status" = some (Value.vStr "decline") ∨
       objGet v "next_action" = some (Value.vStr "hold") ∨
       objGet v "next_action" = some (Value.vStr "later")) := by
  unfold is_room_decline
  by_cases h1 : objHasKey v "error" = true
  · simp [h1]
  · simp only [Bool.not_eq_true] at h1
    by_cases h2 : objGet v "status" = some (Value.vStr "decline")
    · simp [h1, h2]
    · cases h3 : objGet v "next_action" with
      | none => simp [h1, h2, h3]
      | some w =>
          by_cases h4 : w = Value.vStr "hold"
          · simp [h1, h2, h3, h4]
          · by_cases h5 : w = Value.vStr "later"
            · simp [h1, h2, h3, h4, h5]
            · simp [h1, h2, h3, h4, h5]

/-- C7: a stage-output mapping is classified decline exactly when it
contains an `"error"` key, a `"status"` key bound to `"decline"`, or a
`"next_action"` key bound to `"hold"` or `"later"`; every other mapping is
classified ok.  Keys are assumed duplicate-free, as in any Python dict. -/
theorem is_room_decline_spec (kvs : List (String × Value))
    (hn : (kvs.map Prod.fst).Nodup) :
    is_room_decline (.vObj kvs) = true ↔
      ((∃ v, ("error", v) ∈ kvs) ∨ ("status", Value.vStr "decline") ∈ kvs ∨
       ("next_action", Value.vStr "hold") ∈ kvs ∨
       ("next_action", Value.vStr "later") ∈ kvs) := by
  rw [is_room_decline_iff, objHasKey_iff, objGet_eq_some_iff hn, objGet_eq_some_iff hn,
    objGet_eq_some_iff hn]

/-- C7 witness: a mapping with an explicit decline status is classified
decline. -/
theorem is_room_decline_spec_witness :
    (([("status", Value.vStr "decline")].map Prod.fst).Nodup) ∧
    (is_room_decline (.vObj [("status", Value.vStr "decline")]) = true ↔
      ((∃ v, ("error", v) ∈ [("status", Value.vStr "decline")]) ∨
       ("status", Value.vStr "decline") ∈ [("status", Value.vStr "decline")] ∨
       ("next_action", Value.vStr "hold") ∈ [("status", Value.vStr "decline")] ∨
       ("next_action", Value.vStr "later") ∈ [("status", Value.vStr "decline")])) :=
  ⟨by decide, is_room_decline_spec [("status", Value.vStr "decline")] (by decide)⟩

/-- C8: with no subset requested, mini-walk selects exactly the first and
last stage of a canonical sequence of length at least two, and the full
sequence when it is shorter. -/
theorem mini_walk_selection (o : HallwayOrchestrator) :
    (2 ≤ o.sequence.length →
      o.determine_rooms_to_run [] true = .ok [o.sequence.head!, o.sequence.getLast!]) ∧
    (o.sequence.length < 2 → o.determine_rooms_to_run [] true = .ok o.sequence) := by
  constructor
  · intro h
    simp [HallwayOrchestrator.determine_rooms_to_run, h]
  · intro h
    have h2 : ¬ 2 ≤ o.sequence.length := by omega
    simp [HallwayOrchestrator.determine_rooms_to_run, h2]

/-- C8 witness: on the three-stage sample sequence, mini-walk selects
exactly the first and last stages. -/
theorem mini_walk_selection_witness :
    2 ≤ sampleOrch.sequence.length ∧
    sampleOrch.determine_rooms_to_run [] true =
      .ok [sampleOrch.sequence.head!, sampleOrch.sequence.getLast!] :=
  ⟨by decide, (mini_walk_selection sampleOrch).1 (by decide)⟩

/-- The mock output carries neither an error, a status, nor a next-action
signal, so it is never classified decline. -/
theorem is_room_decline_mock (r : String) : is_room_decline (mockOutput r) = false := by
  simp [is_room_decline, mockOutput, objHasKey, objGet, List.find?]

/-- The mock output carries no session-state reference. -/
theorem mockOutput_no_session_ref (r : String) :
    objGet (mockOutput r) "session_state_ref" = none := by
  simp [mockOutput, objGet, List.find?]

/-- Every value `runLoop` returns is produced by `_build_hallway_output`. -/
theorem runLoop_is_build (o : HallwayOrchestrator) (ref : String)
    (payloads : Option (List (String × Value))) (sod dr : Bool) :
    ∀ rooms steps last fr, ∃ s f e,
      runLoop o ref payloads sod dr rooms steps last fr = build_hallway_output o s f e := by
  intro rooms
  induction rooms with
  | nil =>
      intro steps last fr
      exact ⟨_, _, _, rfl⟩
  | cons room rest ih =>
      intro steps last fr
      rw [runLoop]
      dsimp only
      split
      · split
        · exact ⟨_, _, _, rfl⟩
        · exact ih _ _ _
      · split
        · exact ih _ _ _
        · split
          · split
            · exact ⟨_, _, _, rfl⟩
            · exact ih _ _ _
          · split
            · exact ⟨_, _, _, rfl⟩
            · exact ih _ _ _

/-- C10: in every Run Report returned by `run`, `inputs.session_state_ref`
equals `outputs.final_state_ref`: both are the run's final session
reference (with the `"invalid-session-ref"` sentinel substituted when it is
empty or whitespace), so the originally supplied reference is not
separately preserved. -/
theorem inputs_ref_eq_final_ref (o : HallwayOrchestrator) (ref : String)
    (payloads : Option (List (String × Value))) (opts : RunOptions) (out : HallwayOutput)
    (h : o.run ref payloads opts = Except.ok out) :
    out.inputs.session_state_ref = out.outputs.final_state_ref := by
  unfold HallwayOrchestrator.run at h
  cases hdet : o.determine_rooms_to_run opts.rooms_subset opts.mini_walk with
  | error e => rw [hdet] at h; cases h
  | ok rooms =>
      rw [hdet] at h
      dsimp only at h
      obtain ⟨s, f, e, hb⟩ :=
        runLoop_is_build o ref payloads opts.stop_on_decline opts.dry_run rooms [] none ref
      rw [hb] at h
      injection h with h2
      rw [← h2]
      rfl

/-- C10 witness: a concrete dry run of the sample orchestrator. -/
theorem inputs_ref_eq_final_ref_witness :
    sampleDryRunOut.inputs.session_state_ref = sampleDryRunOut.outputs.final_state_ref :=
  inputs_ref_eq_final_ref sampleOrch "session-1" none dryOpts sampleDryRunOut rfl

/-- Subset validation fails with an error as soon as the requested subset
holds a room outside the canonical sequence. -/
theorem checkSubset_error {sequence : List String} {r : String}
    (hc : sequence.contains r = false) :
    ∀ subset : List String, r ∈ subset → ∃ e, checkSubset sequence subset = .error e := by
  intro subset
  induction subset with
  | nil => intro hr; cases hr
  | cons s rest ih =>
      intro hr
      unfold checkSubset
      by_cases hs : sequence.contains s = true
      · rcases List.mem_cons.mp hr with h | h
        · rw [← h] at hs
          rw [hs] at hc
          cases hc
        · simp only [hs, if_true]
          exact ih h
      · have hs' : sequence.contains s = false := by simpa using hs
        simp only [hs', Bool.false_eq_true, if_false]
        exact ⟨_, rfl⟩

/-- C6: a `rooms_subset` containing a stage absent from the canonical
sequence makes `run` fail with the fatal configuration error, for every
gate registry — so before any gate is evaluated, before any stage runs,
and without producing a Run Report or a per-stage decline. -/
theorem invalid_subset_fatal (o : HallwayOrchestrator) (ref : String)
    (payloads : Option (List (String × Value))) (opts : RunOptions) (r : String)
    (hr : r ∈ opts.rooms_subset) (hnot : r ∉ o.sequence) :
    ∃ e, ∀ g : GateRegistry,
      HallwayOrchestrator.run { contract := o.contract, gates := g } ref payloads opts =
        Except.error e := by
  have hc : o.sequence.contains r = false := by
    simpa using hnot
  obtain ⟨e, he⟩ := checkSubset_error hc opts.rooms_subset hr
  refine ⟨e, fun g => ?_⟩
  have hne : opts.rooms_subset ≠ [] := by
    intro hnil
    rw [hnil] at hr
    cases hr
  unfold HallwayOrchestrator.run HallwayOrchestrator.determine_rooms_to_run
  have hseq : ({ contract := o.contract, gates := g } : HallwayOrchestrator).sequence =
      o.sequence := rfl
  rw [hseq, he]
  simp [hne]

/-- C6 witness: requesting `"unknown_room"` aborts the sample run for every
gate registry. -/
theorem invalid_subset_fatal_witness :
    ("unknown_room" ∈ badSubsetOpts.rooms_subset ∧ "unknown_room" ∉ sampleOrch.sequence) ∧
    ∃ e, ∀ g : GateRegistry,
      HallwayOrchestrator.run { contract := sampleOrch.contract, gates := g } "s" none
        badSubsetOpts = Except.error e :=
  ⟨⟨by decide, by decide⟩,
    invalid_subset_fatal sampleOrch "s" none badSubsetOpts "unknown_room" (by decide) (by decide)⟩

/-- C5 (code-bug evidence): with `dry_run` false and every gate passing,
each envelope's `data` is still the dry-run marker payload — the
orchestrator substitutes the marker unconditionally instead of executing
the stage's business logic (hallway.py lines 126-133 stub room execution
out). -/
theorem dry_run_false_still_uses_marker :
    (sampleOrch.run "session-1" none defaultOpts).map
        (fun out => out.outputs.steps.map (fun s => (s.status, s.data))) =
      Except.ok [("ok", mockOutput "entry_room"), ("ok", mockOutput "walk_room"),
                 ("ok", mockOutput "exit_room")] := by
  rfl

/-- Appending one envelope moves the running pointer to its step hash. -/
theorem nextHash_append (h0 : Option String) (steps : List StepResult) (s : StepResult) :
    nextHash h0 (steps ++ [s]) = some s.audit.step_hash := by
  simp [nextHash, List.getLast?_concat]

/-- The running pointer after a cons is the pointer of the tail started at
the head's step hash. -/
theorem nextHash_cons (h0 : Option String) (t : StepResult) (rest : List StepResult) :
    nextHash h0 (t :: rest) = nextHash (some t.audit.step_hash) rest := by
  cases rest with
  | nil => rfl
  | cons u rest2 =>
      unfold nextHash
      rw [List.getLast?_cons_cons]
      cases hgl : (u :: rest2).getLast? with
      | none => simp at hgl
      | some s => rfl

/-- Chain linkage is preserved by appending an envelope whose `prev_hash`
is the current running pointer. -/
theorem chainLinkedFrom_append {h0 : Option String} :
    ∀ {steps : List StepResult} {s : StepResult}, chainLinkedFrom h0 steps →
      s.audit.prev_hash = nextHash h0 steps → chainLinkedFrom h0 (steps ++ [s]) := by
  intro steps
  induction steps generalizing h0 with
  | nil =>
      intro s _ hp
      exact ⟨hp, trivial⟩
  | cons t rest ih =>
      intro s hc hp
      obtain ⟨h1, h2⟩ := hc
      refine ⟨h1, ih h2 ?_⟩
      rwa [nextHash_cons] at hp

/-- In a linked chain, the first envelope's `prev_hash` is the start
pointer. -/
theorem chainLinkedFrom_head {h0 : Option String} {steps : List StepResult}
    (hc : chainLinkedFrom h0 steps) :
    ∀ s0, steps.head? = some s0 → s0.audit.prev_hash = h0 := by
  cases steps with
  | nil => intro s0 h; cases h
  | cons t rest =>
      intro s0 h
      injection h with h2
      rw [← h2]
      exact hc.1

/-- In a linked chain, each envelope's `prev_hash` is the previous
envelope's `step_hash`. -/
theorem chainLinkedFrom_get : ∀ {steps : List StepResult} {h0 : Option String},
    chainLinkedFrom h0 steps →
    ∀ i (hi : i + 1 < steps.length),
      (steps.get ⟨i + 1, hi⟩).audit.prev_hash =
        some ((steps.get ⟨i, Nat.lt_of_succ_lt hi⟩).audit.step_hash) := by
  intro steps
  induction steps with
  | nil =>
      intro h0 _ i hi
      simp at hi
  | cons t rest ih =>
      intro h0 hc i hi
      cases i with
      | zero =>
          cases rest with
          | nil => simp at hi
          | cons u rest2 => exact hc.2.1
      | succ j => exact ih hc.2 j (Nat.lt_of_succ_lt_succ hi)

/-- The loop preserves chain linkage: if the accumulated envelopes are
linked from `none` and the running pointer is their last hash, every
envelope list the loop can return is linked from `none`. -/
theorem runLoop_chain (o : HallwayOrchestrator) (ref : String)
    (payloads : Option (List (String × Value))) (sod dr : Bool) :
    ∀ rooms steps last fr, chainLinkedFrom none steps → last = nextHash none steps →
      chainLinkedFrom none (runLoop o ref payloads sod dr rooms steps last fr).outputs.steps := by
  intro rooms
  induction rooms with
  | nil =>
      intro steps last fr hc _
      exact hc
  | cons room rest ih =>
      intro steps last fr hc hl
      rw [runLoop]
      dsimp only
      split
      · split
        · exact chainLinkedFrom_append hc hl
        · exact ih _ _ _ (chainLinkedFrom_append hc hl) (nextHash_append none steps _).symm
      · split
        · exact ih _ _ _ (chainLinkedFrom_append hc hl) (nextHash_append none steps _).symm
        · split
          · split
            · exact chainLinkedFrom_append hc hl
            · exact ih _ _ _ (chainLinkedFrom_append hc hl) (nextHash_append none steps _).symm
          · split
            · exact chainLinkedFrom_append hc hl
            · exact ih _ _ _ (chainLinkedFrom_append hc hl) (nextHash_append none steps _).symm

/-- C1: in every Run Report returned by `run`, the envelopes form a linked
audit chain on every path (gate-denial declines, dry-run steps, early exit
included): the first envelope's `prev_hash` is null and each later
envelope's `prev_hash` equals its predecessor's `step_hash`. -/
theorem run_chain_linkage (o : HallwayOrchestrator) (ref : String)
    (payloads : Option (List (String × Value))) (opts : RunOptions) (out : HallwayOutput)
    (h : o.run ref payloads opts = Except.ok out) :
    (∀ s0, out.outputs.steps.head? = some s0 → s0.audit.prev_hash = none) ∧
    (∀ i (hi : i + 1 < out.outputs.steps.length),
      (out.outputs.steps.get ⟨i + 1, hi⟩).audit.prev_hash =
        some ((out.outputs.steps.get ⟨i, Nat.lt_of_succ_lt hi⟩).audit.step_hash)) := by
  unfold HallwayOrchestrator.run at h
  cases hdet : o.determine_rooms_to_run opts.rooms_subset opts.mini_walk with
  | error e => rw [hdet] at h; cases h
  | ok rooms =>
      rw [hdet] at h
      dsimp only at h
      injection h with h2
      have hc : chainLinkedFrom none out.outputs.steps := by
        rw [← h2]
        exact runLoop_chain o ref payloads opts.stop_on_decline opts.dry_run rooms [] none ref
          trivial rfl
      exact ⟨chainLinkedFrom_head hc, fun i hi => chainLinkedFrom_get hc i hi⟩

/-- C1 witness: the three dry-run envelopes of the sample run are linked. -/
theorem run_chain_linkage_witness :
    (∀ s0, sampleDryRunOut.outputs.steps.head? = some s0 → s0.audit.prev_hash = none) ∧
    (∀ i (hi : i + 1 < sampleDryRunOut.outputs.steps.length),
      (sampleDryRunOut.outputs.steps.get ⟨i + 1, hi⟩).audit.prev_hash =
        some ((sampleDryRunOut.outputs.steps.get ⟨i, Nat.lt_of_succ_lt hi⟩).audit.step_hash)) :=
  run_chain_linkage sampleOrch "session-1" none dryOpts sampleDryRunOut rfl

/-- With `stop_on_decline` false the loop appends exactly one envelope per
remaining room, whatever the gate outcomes: the room ids of the final
envelope list are the accumulated ones followed by the remaining rooms. -/
theorem runLoop_continue_rooms (o : HallwayOrchestrator) (ref : String)
    (payloads : Option (List (String × Value))) (dr : Bool) :
    ∀ rooms steps last fr,
      ((runLoop o ref payloads false dr rooms steps last fr).outputs.steps).map
          (fun s => s.room_id) =
        (steps.map (fun s => s.room_id)) ++ rooms := by
  intro rooms
  induction rooms with
  | nil =>
      intro steps last fr
      simp [runLoop, build_hallway_output]
  | cons room rest ih =>
      intro steps last fr
      rw [runLoop]
      dsimp only
      split
      · simp only [Bool.false_eq_true, if_false]
        rw [ih]
        simp [upcast_v01_to_v02]
      · split
        · rw [ih]
          simp [upcast_v01_to_v02]
        · simp only [is_room_decline_mock, Bool.false_eq_true, if_false, Bool.and_false,
            mockOutput_no_session_ref]
          rw [ih]
          simp [upcast_v01_to_v02]

/-- C9: with `stop_on_decline` false, a decline at any selected stage does
not terminate the walk: the run still yields one envelope per selected
stage, in order. -/
theorem continue_on_decline (o : HallwayOrchestrator) (ref : String)
    (payloads : Option (List (String × Value))) (opts : RunOptions) (rooms : List String)
    (hsod : opts.stop_on_decline = false)
    (hdet : o.determine_rooms_to_run opts.rooms_subset opts.mini_walk = .ok rooms) :
    ∃ out, o.run ref payloads opts = Except.ok out ∧
      out.outputs.steps.map (fun s => s.room_id) = rooms ∧
      out.outputs.steps.length = rooms.length := by
  have hmap : ((runLoop o ref payloads false opts.dry_run rooms [] none ref).outputs.steps).map
      (fun s => s.room_id) = rooms := by
    simpa using runLoop_continue_rooms o ref payloads opts.dry_run rooms [] none ref
  refine ⟨runLoop o ref payloads opts.stop_on_decline opts.dry_run rooms [] none ref, ?_, ?_, ?_⟩
  · unfold HallwayOrchestrator.run
    rw [hdet]
  · rw [hsod]
    exact hmap
  · rw [hsod]
    have hlen := congrArg List.length hmap
    simpa using hlen

/-- C9 witness: an always-denying gate chain with `stop_on_decline` false
still yields one envelope for each of the three stages. -/
theorem continue_on_decline_witness :
    (continueOpts.stop_on_decline = false ∧
     denyOrch.determine_rooms_to_run continueOpts.rooms_subset continueOpts.mini_walk =
       .ok ["entry_room", "walk_room", "exit_room"]) ∧
    ∃ out, denyOrch.run "s" none continueOpts = Except.ok out ∧
      out.outputs.steps.map (fun s => s.room_id) = ["entry_room", "walk_room", "exit_room"] ∧
      out.outputs.steps.length = (["entry_room", "walk_room", "exit_room"] : List String).length :=
  ⟨⟨rfl, rfl⟩, continue_on_decline denyOrch "s" none continueOpts _ rfl rfl⟩

/-- With `stop_on_decline` true, gates passing on a prefix of rooms and the
gate chain denying the next room, the loop stops right after appending the
decline envelope for that room: room ids and statuses extend the
accumulator by the prefix (all ok) plus one decline, the exit summary is an
uncompleted `gate_chain_failed` decline, and the last envelope carries the
gate decisions and the error payload. -/
theorem runLoop_gate_denial (o : HallwayOrchestrator) (ref : String)
    (payloads : Option (List (String × Value))) (dr : Bool) :
    ∀ pre rk post steps last fr,
      (∀ r ∈ pre, gatePass o ref payloads r = true) →
      gatePass o ref payloads rk = false →
      ((runLoop o ref payloads true dr (pre ++ rk :: post) steps last fr).outputs.steps.map
          (fun s => s.room_id) = (steps.map (fun s => s.room_id)) ++ pre ++ [rk]) ∧
      ((runLoop o ref payloads true dr (pre ++ rk :: post) steps last fr).outputs.steps.map
          (fun s => s.status) =
        (steps.map (fun s => s.status)) ++ pre.map (fun _ => "ok") ++ ["decline"]) ∧
      (runLoop o ref payloads true dr (pre ++ rk :: post) steps last
          fr).outputs.exit_summary.completed = false ∧
      ((runLoop o ref payloads true dr (pre ++ rk :: post) steps last
          fr).outputs.exit_summary.decline.map (fun d => d.reason)) = some "gate_chain_failed" ∧
      ∃ s, (runLoop o ref payloads true dr (pre ++ rk :: post) steps last
            fr).outputs.steps.getLast? = some s ∧
        s.room_id = rk ∧ s.status = "decline" ∧
        s.gate_decisions = gateDecisionsFor o ref payloads rk ∧
        s.data = gateFailPayload (gateDecisionsFor o ref payloads rk) := by
  intro pre
  induction pre with
  | nil =>
      intro rk post steps last fr _ hrk
      rw [List.nil_append, runLoop]
      dsimp only
      rw [hrk]
      simp only [Bool.not_false, if_true]
      refine ⟨by simp [build_hallway_output, upcast_v01_to_v02],
        by simp [build_hallway_output, upcast_v01_to_v02], rfl, rfl, ?_⟩
      refine ⟨_, List.getLast?_concat _, rfl, rfl, rfl, rfl⟩
  | cons r pre' ih =>
      intro rk post steps last fr hpre hrk
      have hr : gatePass o ref payloads r = true := hpre r (List.mem_cons_self r pre')
      have hpre' : ∀ x ∈ pre', gatePass o ref payloads x = true :=
        fun x hx => hpre x (List.mem_cons_of_mem r hx)
      rw [List.cons_append, runLoop]
      dsimp only
      rw [hr]
      simp only [Bool.not_true, Bool.false_eq_true, if_false]
      by_cases hd : dr
      · rw [if_pos hd]
        obtain ⟨h1, h2, h3, h4, h5⟩ := ih rk post
          (steps ++ [upcast_v01_to_v02 r (mockOutput r) "ok"
            (gateDecisionsFor o ref payloads r) last none "0.1.0"])
          (some (upcast_v01_to_v02 r (mockOutput r) "ok"
            (gateDecisionsFor o ref payloads r) last none "0.1.0").audit.step_hash)
          fr hpre' hrk
        refine ⟨?_, ?_, h3, h4, h5⟩
        · rw [h1]
          simp [upcast_v01_to_v02]
        · rw [h2]
          simp [upcast_v01_to_v02]
      · rw [if_neg hd]
        simp only [is_room_decline_mock, Bool.false_eq_true, if_false,
          mockOutput_no_session_ref]
        have hcond : (("ok" == "decline") && true) = false := by decide
        rw [hcond]
        simp only [Bool.false_eq_true, if_false]
        obtain ⟨h1, h2, h3, h4, h5⟩ := ih rk post
          (steps ++ [upcast_v01_to_v02 r (mockOutput r) "ok"
            (gateDecisionsFor o ref payloads r) last none "0.1.0"])
          (some (upcast_v01_to_v02 r (mockOutput r) "ok"
            (gateDecisionsFor o ref payloads r) last none "0.1.0").audit.step_hash)
          fr hpre' hrk
        refine ⟨?_, ?_, h3, h4, h5⟩
        · rw [h1]
          simp [upcast_v01_to_v02]
        · rw [h2]
          simp [upcast_v01_to_v02]

/-- C4: with `stop_on_decline` true, when the gate chain denies the room
after a prefix of gate-passing rooms, `run` appends exactly the prefix
envelopes (all ok) plus one decline envelope for the denied room — nothing
for any later stage — and exits uncompleted with reason
`gate_chain_failed`; the decline envelope carries the gate decisions and
the error payload. -/
theorem gate_denial_stops_run (o : HallwayOrchestrator) (ref : String)
    (payloads : Option (List (String × Value))) (opts : RunOptions)
    (pre : List String) (rk : String) (post : List String)
    (hsod : opts.stop_on_decline = true)
    (hdet : o.determine_rooms_to_run opts.rooms_subset opts.mini_walk = .ok (pre ++ rk :: post))
    (hpre : ∀ r ∈ pre, gatePass o ref payloads r = true)
    (hrk : gatePass o ref payloads rk = false) :
    ∃ out, o.run ref payloads opts = Except.ok out ∧
      out.outputs.steps.map (fun s => s.room_id) = pre ++ [rk] ∧
      out.outputs.steps.map (fun s => s.status) = pre.map (fun _ => "ok") ++ ["decline"] ∧
      out.outputs.exit_summary.completed = false ∧
      (out.outputs.exit_summary.decline.map (fun d => d.reason)) = some "gate_chain_failed" ∧
      ∃ s, out.outputs.steps.getLast? = some s ∧ s.room_id = rk ∧ s.status = "decline" ∧
        s.gate_decisions = gateDecisionsFor o ref payloads rk ∧
        s.data = gateFailPayload (gateDecisionsFor o ref payloads rk) := by
  refine ⟨runLoop o ref payloads opts.stop_on_decline opts.dry_run (pre ++ rk :: post) [] none ref,
    ?_, ?_⟩
  · unfold HallwayOrchestrator.run
    rw [hdet]
  · rw [hsod]
    obtain ⟨h1, h2, h3, h4, h5⟩ :=
      runLoop_gate_denial o ref payloads opts.dry_run pre rk post [] none ref hpre hrk
    exact ⟨by simpa using h1, by simpa using h2, h3, h4, h5⟩

/-- C4 witness: denying `"walk_room"` after a passing `"entry_room"` under
the default options. -/
theorem gate_denial_stops_run_witness :
    (defaultOpts.stop_on_decline = true ∧
     walkDenyOrch.determine_rooms_to_run defaultOpts.rooms_subset defaultOpts.mini_walk =
       .ok (["entry_room"] ++ "walk_room" :: ["exit_room"]) ∧
     (∀ r ∈ ["entry_room"], gatePass walkDenyOrch "s" none r = true) ∧
     gatePass walkDenyOrch "s" none "walk_room" = false) ∧
    ∃ out, walkDenyOrch.run "s" none defaultOpts = Except.ok out ∧
      out.outputs.steps.map (fun s => s.room_id) = ["entry_room"] ++ ["walk_room"] ∧
      out.outputs.steps.map (fun s => s.status) =
        (["entry_room"].map (fun _ => "ok")) ++ ["decline"] ∧
      out.outputs.exit_summary.completed = false ∧
      (out.outputs.exit_summary.decline.map (fun d => d.reason)) = some "gate_chain_failed" ∧
      ∃ s, out.outputs.steps.getLast? = some s ∧ s.room_id = "walk_room" ∧
        s.status = "decline" ∧
        s.gate_decisions = gateDecisionsFor walkDenyOrch "s" none "walk_room" ∧
        s.data = gateFailPayload (gateDecisionsFor walkDenyOrch "s" none "walk_room") :=
  ⟨⟨rfl, rfl, by decide, by decide⟩,
    gate_denial_stops_run walkDenyOrch "s" none defaultOpts ["entry_room"] "walk_room"
      ["exit_room"] rfl rfl (by decide) (by decide)⟩

/-- Strings with equal character data are equal. -/
theorem string_data_inj {a b : String} (h : a.data = b.data) : a = b := by
  cases a
  cases b
  cases h
  rfl

/-- A Boolean-distinct key list is duplicate-free. -/
theorem distinctKeys_nodup : ∀ {l : List String}, distinctKeys l = true → l.Nodup := by
  intro l
  induction l with
  | nil => intro _; exact List.nodup_nil
  | cons k rest ih =>
      intro h
      simp only [distinctKeys, Bool.and_eq_true] at h
      refine List.nodup_cons.mpr ⟨?_, ih h.2⟩
      intro hmem
      have hcf : rest.contains k = false := by
        have := h.1
        rwa [Bool.not_eq_eq_eq_not, Bool.not_true] at this
      rw [List.contains_eq_any_beq] at hcf
      have : rest.any (fun x => k == x) = true :=
        List.any_eq_true.mpr ⟨k, hmem, by simp⟩
      rw [this] at hcf
      cases hcf

/-- Sorted-by-key entries with duplicate-free keys are strictly sorted. -/
theorem sorted_entryLT_of_nodup {l : List (String × String)}
    (hs : List.Sorted entryLE l) (hn : (l.map Prod.fst).Nodup) :
    List.Sorted entryLT l := by
  have hne : l.Pairwise (fun a b : String × String => a.1 ≠ b.1) :=
    (List.pairwise_map).mp hn
  exact (hs.and hne).imp
    (fun h => lt_of_le_of_ne h.1 (fun e => h.2 (string_data_inj e)))

/-- Sorting by key is invariant under permutation of entries with
duplicate-free keys: the canonical serializer's key ordering erases
construction order. -/
theorem sortEntries_eq_of_perm {l₁ l₂ : List (String × String)} (hp : l₁.Perm l₂)
    (hn : (l₁.map Prod.fst).Nodup) : sortEntries l₁ = sortEntries l₂ := by
  have hperm : (sortEntries l₁).Perm (sortEntries l₂) :=
    ((List.perm_insertionSort entryLE l₁).trans hp).trans
      (List.perm_insertionSort entryLE l₂).symm
  have hn₁ : ((sortEntries l₁).map Prod.fst).Nodup :=
    ((List.perm_insertionSort entryLE l₁).map Prod.fst).nodup_iff.mpr hn
  have hn₂ : ((sortEntries l₂).map Prod.fst).Nodup :=
    ((List.perm_insertionSort entryLE l₂).map Prod.fst).nodup_iff.mpr
      ((hp.map Prod.fst).nodup_iff.mp hn)
  exact List.eq_of_perm_of_sorted hperm
    (sorted_entryLT_of_nodup (List.sorted_insertionSort entryLE l₁) hn₁)
    (sorted_entryLT_of_nodup (List.sorted_insertionSort entryLE l₂) hn₂)

/-- `canonicalEntries` is the entry-wise map that serializes each value. -/
theorem canonicalEntries_eq_map : ∀ l : List (String × Value),
    canonicalEntries l = l.map (fun p => (p.1, canonicalVal p.2)) := by
  intro l
  induction l with
  | nil => rfl
  | cons p rest ih =>
      cases p
      simp [canonicalEntries, ih]

/-- Serializing entry values preserves the key list. -/
theorem canonicalEntries_keys (l : List (String × Value)) :
    (canonicalEntries l).map Prod.fst = l.map Prod.fst := by
  rw [canonicalEntries_eq_map, List.map_map]
  rfl

mutual

/-- Key-order-equivalent well-formed values have identical canonical
serializations. -/
theorem kpe_canon (v w : Value) (h : KeyPermEquiv v w) (hw : wfValue v = true) :
    canonicalVal v = canonicalVal w := by
  cases h with
  | null => rfl
  | bool b => rfl
  | int n => rfl
  | str s => rfl
  | arr hl =>
      rename_i xs ys
      have hw' : wfList xs = true := by
        simpa [wfValue] using hw
      simp only [canonicalVal]
      rw [el_canon xs ys hl hw']
  | obj he hp =>
      rename_i l₁ mid l₂
      have hw' : distinctKeys (l₁.map Prod.fst) = true ∧ wfEntries l₁ = true := by
        have := hw
        simp only [wfValue, Bool.and_eq_true] at this
        exact this
      have h1 : canonicalEntries l₁ = canonicalEntries mid := ee_canon l₁ mid he hw'.2
      have h2 : (canonicalEntries mid).Perm (canonicalEntries l₂) := by
        rw [canonicalEntries_eq_map, canonicalEntries_eq_map]
        exact hp.map _
      have h3 : (canonicalEntries l₁).Perm (canonicalEntries l₂) := by
        rw [h1]
        exact h2
      have hkeys : ((canonicalEntries l₁).map Prod.fst).Nodup := by
        rw [canonicalEntries_keys]
        exact distinctKeys_nodup hw'.1
      simp only [canonicalVal]
      rw [sortEntries_eq_of_perm h3 hkeys]

/-- Element-wise equivalent well-formed arrays serialize identically. -/
theorem el_canon (xs ys : List Value) (h : EquivList xs ys) (hw : wfList xs = true) :
    canonicalList xs = canonicalList ys := by
  cases h with
  | nil => rfl
  | cons hv hrest =>
      rename_i v w vs ws
      have hw' : wfValue v = true ∧ wfList vs = true := by
        have := hw
        simp only [wfList, Bool.and_eq_true] at this
        exact this
      simp only [canonicalList]
      rw [kpe_canon v w hv hw'.1, el_canon vs ws hrest hw'.2]

/-- Entry-wise equivalent well-formed entry lists serialize identically. -/
theorem ee_canon (l₁ l₂ : List (String × Value)) (h : EquivEntries l₁ l₂)
    (hw : wfEntries l₁ = true) : canonicalEntries l₁ = canonicalEntries l₂ := by
  cases h with
  | nil => rfl
  | cons k hv hrest =>
      rename_i v w r₁ r₂
      have hw' : wfValue v = true ∧ wfEntries r₁ = true := by
        have := hw
        simp only [wfEntries, Bool.and_eq_true] at this
        exact this
      simp only [canonicalEntries]
      rw [kpe_canon v w hv hw'.1, ee_canon r₁ r₂ hrest hw'.2]

end

/-- C3: the envelope's `step_hash` is a pure function of the legacy output
alone.  First conjunct: the same output with entirely different metadata
(room id, status, gate decisions, prev hash, diagnostics digest, contract
version) hashes identically.  Second conjunct: outputs equal up to mapping
key construction order (for well-formed, duplicate-free-key values) hash
identically. -/
theorem step_hash_pure (v w : Value) (h : KeyPermEquiv v w) (hw : wfValue v = true)
    (rid rid2 st st2 : String) (gd gd2 : List Value) (ph ph2 dd dd2 : Option String)
    (rcv rcv2 : String) :
    ((upcast_v01_to_v02 rid v st gd ph dd rcv).audit.step_hash =
      (upcast_v01_to_v02 rid2 v st2 gd2 ph2 dd2 rcv2).audit.step_hash) ∧
    ((upcast_v01_to_v02 rid v st gd ph dd rcv).audit.step_hash =
      (upcast_v01_to_v02 rid2 w st2 gd2 ph2 dd2 rcv2).audit.step_hash) := by
  constructor
  · rfl
  · show compute_step_hash v = compute_step_hash w
    unfold compute_step_hash canonical_json
    rw [kpe_canon v w h hw]

/-- C3 witness: the same two-key mapping built in both key orders, upcast
with entirely different metadata, yields the same step hash. -/
theorem step_hash_pure_witness :
    (KeyPermEquiv (.vObj [("b", .vInt 2), ("a", .vInt 1)])
        (.vObj [("a", .vInt 1), ("b", .vInt 2)]) ∧
      wfValue (.vObj [("b", .vInt 2), ("a", .vInt 1)]) = true) ∧
    ((upcast_v01_to_v02 "entry_room" (.vObj [("b", .vInt 2), ("a", .vInt 1)]) "ok" []
        none none "0.1.0").audit.step_hash =
      (upcast_v01_to_v02 "exit_room" (.vObj [("b", .vInt 2), ("a", .vInt 1)]) "decline"
        [.vNull] (some "h") (some "d") "0.2.0").audit.step_hash) ∧
    ((upcast_v01_to_v02 "entry_room" (.vObj [("b", .vInt 2), ("a", .vInt 1)]) "ok" []
        none none "0.1.0").audit.step_hash =
      (upcast_v01_to_v02 "exit_room" (.vObj [("a", .vInt 1), ("b", .vInt 2)]) "decline"
        [.vNull] (some "h") (some "d") "0.2.0").audit.step_hash) :=
  ⟨⟨KeyPermEquiv.obj
      (EquivEntries.cons "b" (KeyPermEquiv.int 2)
        (EquivEntries.cons "a" (KeyPermEquiv.int 1) EquivEntries.nil))
      (List.Perm.swap ("a", Value.vInt 1) ("b", Value.vInt 2) []),
    by decide⟩,
    step_hash_pure (.vObj [("b", .vInt 2), ("a", .vInt 1)])
      (.vObj [("a", .vInt 1), ("b", .vInt 2)])
      (KeyPermEquiv.obj
        (EquivEntries.cons "b" (KeyPermEquiv.int 2)
          (EquivEntries.cons "a" (KeyPermEquiv.int 1) EquivEntries.nil))
        (List.Perm.swap ("a", Value.vInt 1) ("b", Value.vInt 2) []))
      (by decide) "entry_room" "exit_room" "ok" "decline" [] [.vNull] none (some "h")
      none (some "d") "0.1.0" "0.2.0"⟩

end Hallway
